import Mathlib

set_option maxHeartbeats 1000000

/-!
Shallow embedding of `nautilus_core/indicators/src/volatility/atr.rs`
(`AverageTrueRange`) together with the moving-average machinery it owns.
The source's `f64` fields are modelled by exact rationals (`ℚ`), `usize`
by `Nat`, and the boxed `dyn MovingAverage` trait object by a closed sum
of the concrete variants.  Every mutating method becomes a pure
state-to-state function.
-/

/-- Tag selecting a moving-average variant (`MovingAverageType` in the source crate). -/
inductive MovingAverageType where
  | simple
  | exponential
deriving DecidableEq

/-- Modelled from the spec: the concrete `SimpleMovingAverage` variant is not among
the provided sources; per the spec it smooths a scalar stream over a rolling
window of at most `period` inputs and reports `0` before any input. -/
structure SimpleMovingAverage where
  period : Nat
  inputs : List ℚ
deriving DecidableEq

/-- Modelled from the spec: fold one observation into the window, evicting the
oldest once the window exceeds `period` (amortized O(1)). -/
def SimpleMovingAverage.update_raw (ma : SimpleMovingAverage) (x : ℚ) : SimpleMovingAverage :=
  let inputs := ma.inputs ++ [x]
  { ma with inputs := if ma.period < inputs.length then inputs.tail else inputs }

/-- Modelled from the spec: current smoothed value, `0` before any input. -/
def SimpleMovingAverage.value (ma : SimpleMovingAverage) : ℚ :=
  if ma.inputs.length = 0 then 0 else ma.inputs.sum / (ma.inputs.length : ℚ)

/-- Modelled from the spec: the concrete `ExponentialMovingAverage` variant is not
among the provided sources; it keeps a running exponentially weighted value. -/
structure ExponentialMovingAverage where
  period : Nat
  currentValue : ℚ
  count : Nat
deriving DecidableEq

/-- Modelled from the spec: standard smoothing coefficient `2 / (period + 1)`. -/
def ExponentialMovingAverage.alpha (ma : ExponentialMovingAverage) : ℚ :=
  2 / ((ma.period : ℚ) + 1)

/-- Modelled from the spec: first observation seeds the value, later ones blend in
with weight `alpha`. -/
def ExponentialMovingAverage.update_raw (ma : ExponentialMovingAverage) (x : ℚ) :
    ExponentialMovingAverage :=
  if ma.count = 0 then
    { ma with currentValue := x, count := 1 }
  else
    { ma with currentValue := ma.alpha * x + (1 - ma.alpha) * ma.currentValue,
              count := ma.count + 1 }

/-- Modelled from the spec: current smoothed value. -/
def ExponentialMovingAverage.value (ma : ExponentialMovingAverage) : ℚ :=
  ma.currentValue

/-- Closed sum of moving-average variants, standing for the source's
`Box<dyn MovingAverage>` trait object. -/
inductive MovingAverage where
  | simple (ma : SimpleMovingAverage)
  | exponential (ma : ExponentialMovingAverage)
deriving DecidableEq

/-- Dispatch `update_raw` to the concrete variant. -/
def MovingAverage.update_raw : MovingAverage → ℚ → MovingAverage
  | .simple ma, x => .simple (ma.update_raw x)
  | .exponential ma, x => .exponential (ma.update_raw x)

/-- Dispatch `value` to the concrete variant. -/
def MovingAverage.value : MovingAverage → ℚ
  | .simple ma => ma.value
  | .exponential ma => ma.value

/-- True when the held variant is the simple moving average. -/
def MovingAverage.isSimpleVariant : MovingAverage → Bool
  | .simple _ => true
  | .exponential _ => false

/-- Modelled from the spec: `MovingAverageFactory::create` is not among the
provided sources; it constructs a fresh concrete variant selected by the tag,
sized to `period`. -/
def MovingAverageFactory.create (t : MovingAverageType) (period : Nat) : MovingAverage :=
  match t with
  | .simple => .simple { period := period, inputs := [] }
  | .exponential => .exponential { period := period, currentValue := 0, count := 0 }

/-- Bar event carrying the three price fields `AverageTrueRange` consumes. -/
structure Bar where
  high : ℚ
  low : ℚ
  close : ℚ
deriving DecidableEq

/-- Quote tick event; `AverageTrueRange` ignores its payload entirely. -/
structure QuoteTick where
  payload : Unit
deriving DecidableEq

/-- Trade tick event; `AverageTrueRange` ignores its payload entirely. -/
structure TradeTick where
  payload : Unit
deriving DecidableEq

/-- State of the `AverageTrueRange` indicator, mirroring the Rust struct field
for field. -/
structure AverageTrueRange where
  period : Nat
  ma_type : MovingAverageType
  use_previous : Bool
  value_floor : ℚ
  value : ℚ
  count : Nat
  is_initialized : Bool
  has_inputs : Bool
  _previous_close : ℚ
  _ma : MovingAverage
deriving DecidableEq

/-- The record built by `AverageTrueRange::new`.  Mirrors the source exactly:
note that the factory call passes the literal `MovingAverageType::Simple`
rather than the resolved `ma_type`. -/
def AverageTrueRange.init (period : Nat) (ma_type : Option MovingAverageType)
    (use_previous : Option Bool) (value_floor : Option ℚ) : AverageTrueRange :=
  { period := period
    ma_type := ma_type.getD .simple
    use_previous := use_previous.getD true
    value_floor := value_floor.getD 0
    value := 0
    count := 0
    _previous_close := 0
    _ma := MovingAverageFactory.create .simple period
    has_inputs := false
    is_initialized := false }

/-- `AverageTrueRange::new`: the source unconditionally returns `Ok(...)`
(`anyhow::Result`), with no validation of any parameter. -/
def AverageTrueRange.new (period : Nat) (ma_type : Option MovingAverageType)
    (use_previous : Option Bool) (value_floor : Option ℚ) :
    Except String AverageTrueRange :=
  .ok (AverageTrueRange.init period ma_type use_previous value_floor)

/-- Two-term true range, the exact expression inside `update_raw`:
`max(previous_close, high) - min(low, previous_close)`. -/
def trueRangeTwoTerm (previous_close high low : ℚ) : ℚ :=
  max previous_close high - min low previous_close

/-- Three-term true range following the spec's words:
`max(high - low, |high - previous_close|, |low - previous_close|)`. -/
def trueRangeThreeTerm (previous_close high low : ℚ) : ℚ :=
  max (high - low) (max |high - previous_close| |low - previous_close|)

/-- `AverageTrueRange::_floor_value`: copy the moving average's value out unless a
positive floor exceeds it, in which case pin to the floor. -/
def AverageTrueRange._floor_value (s : AverageTrueRange) : AverageTrueRange :=
  if s.value_floor = 0 ∨ s.value_floor < s._ma.value then
    { s with value := s._ma.value }
  else
    { s with value := s.value_floor }

/-- `AverageTrueRange::increment_count`: bump `count`; while not yet initialized,
set `has_inputs` and flip `is_initialized` once `count` reaches `period`. -/
def AverageTrueRange.increment_count (s : AverageTrueRange) : AverageTrueRange :=
  let s1 := { s with count := s.count + 1 }
  if s1.is_initialized = false then
    let s2 := { s1 with has_inputs := true }
    if s2.period ≤ s2.count then { s2 with is_initialized := true } else s2
  else s1

/-- `AverageTrueRange::update_raw`: compute the true range (seeding
`_previous_close` with `close` on the first input when `use_previous`), feed it
to the owned moving average, floor, and advance the bookkeeping. -/
def AverageTrueRange.update_raw (s : AverageTrueRange) (high low close : ℚ) :
    AverageTrueRange :=
  let s1 :=
    if s.use_previous then
      let pc := if s.has_inputs = false then close else s._previous_close
      { s with _ma := s._ma.update_raw (trueRangeTwoTerm pc high low),
               _previous_close := close }
    else
      { s with _ma := s._ma.update_raw (high - low) }
  s1._floor_value.increment_count

/-- `Indicator::handle_quote_tick` for `AverageTrueRange`: the body is
intentionally blank in the source. -/
def AverageTrueRange.handle_quote_tick (s : AverageTrueRange) (_tick : QuoteTick) :
    AverageTrueRange :=
  s

/-- `Indicator::handle_trade_tick` for `AverageTrueRange`: the body is
intentionally blank in the source. -/
def AverageTrueRange.handle_trade_tick (s : AverageTrueRange) (_tick : TradeTick) :
    AverageTrueRange :=
  s

/-- `Indicator::handle_bar` for `AverageTrueRange`: delegate to `update_raw`. -/
def AverageTrueRange.handle_bar (s : AverageTrueRange) (bar : Bar) : AverageTrueRange :=
  s.update_raw bar.high bar.low bar.close

/-- `Indicator::reset` for `AverageTrueRange`: zero the accumulated numeric
fields.  Mirrors the source exactly: the owned `_ma` is left untouched. -/
def AverageTrueRange.reset (s : AverageTrueRange) : AverageTrueRange :=
  { s with _previous_close := 0
           value := 0
           count := 0
           has_inputs := false
           is_initialized := false }

/-- One externally visible operation on an `AverageTrueRange` instance. -/
inductive AtrOp where
  | updateRaw (high low close : ℚ)
  | handleBar (bar : Bar)
  | handleQuoteTick (tick : QuoteTick)
  | handleTradeTick (tick : TradeTick)
  | reset

/-- Apply one operation to the state. -/
def AverageTrueRange.applyOp (s : AverageTrueRange) : AtrOp → AverageTrueRange
  | .updateRaw h l c => s.update_raw h l c
  | .handleBar b => s.handle_bar b
  | .handleQuoteTick t => s.handle_quote_tick t
  | .handleTradeTick t => s.handle_trade_tick t
  | .reset => s.reset

/-- Apply a sequence of operations from left to right. -/
def AverageTrueRange.applyOps (s : AverageTrueRange) : List AtrOp → AverageTrueRange
  | [] => s
  | op :: rest => (s.applyOp op).applyOps rest

/-- Apply a sequence of `update_raw` calls, one `(high, low, close)` triple each. -/
def AverageTrueRange.applyUpdates (s : AverageTrueRange) :
    List (ℚ × ℚ × ℚ) → AverageTrueRange
  | [] => s
  | (h, l, c) :: rest => (s.update_raw h l c).applyUpdates rest

/-- Spec invariant: `is_initialized` implies `count ≥ period` and `has_inputs`. -/
def AtrInv (s : AverageTrueRange) : Prop :=
  s.is_initialized = true → s.period ≤ s.count ∧ s.has_inputs = true

/-- Strengthened invariant used for induction: additionally, `has_inputs`
tracks `count > 0` exactly. -/
def AtrFullInv (s : AverageTrueRange) : Prop :=
  (s.has_inputs = true ↔ 0 < s.count) ∧ AtrInv s

/-- The scalar fed into the owned moving average by one `update_raw` call. -/
def AverageTrueRange.atrInput (s : AverageTrueRange) (high low close : ℚ) : ℚ :=
  if s.use_previous = true then
    trueRangeTwoTerm (if s.has_inputs = false then close else s._previous_close) high low
  else
    high - low

lemma AverageTrueRange.update_raw_count (s : AverageTrueRange) (h l c : ℚ) :
    (s.update_raw h l c).count = s.count + 1 := by
  simp only [update_raw, _floor_value, increment_count]
  split_ifs <;> rfl

lemma AverageTrueRange.update_raw_period (s : AverageTrueRange) (h l c : ℚ) :
    (s.update_raw h l c).period = s.period := by
  simp only [update_raw, _floor_value, increment_count]
  split_ifs <;> rfl

lemma AverageTrueRange.update_raw_value_floor (s : AverageTrueRange) (h l c : ℚ) :
    (s.update_raw h l c).value_floor = s.value_floor := by
  simp only [update_raw, _floor_value, increment_count]
  split_ifs <;> rfl

lemma AverageTrueRange.update_raw_has_inputs (s : AverageTrueRange) (h l c : ℚ) :
    (s.update_raw h l c).has_inputs =
      (if s.is_initialized = true then s.has_inputs else true) := by
  simp only [update_raw, _floor_value, increment_count]
  split_ifs <;> simp_all

lemma AverageTrueRange.update_raw_is_initialized (s : AverageTrueRange) (h l c : ℚ) :
    (s.update_raw h l c).is_initialized =
      (s.is_initialized || decide (s.period ≤ s.count + 1)) := by
  simp only [update_raw, _floor_value, increment_count]
  split_ifs <;> simp_all

lemma AverageTrueRange.update_raw_ma (s : AverageTrueRange) (h l c : ℚ) :
    (s.update_raw h l c)._ma = s._ma.update_raw (s.atrInput h l c) := by
  simp only [update_raw, _floor_value, increment_count, atrInput]
  split_ifs <;> simp_all

lemma AverageTrueRange.update_raw_value (s : AverageTrueRange) (h l c : ℚ) :
    (s.update_raw h l c).value =
      (if s.value_floor = 0 ∨ s.value_floor < (s._ma.update_raw (s.atrInput h l c)).value
       then (s._ma.update_raw (s.atrInput h l c)).value
       else s.value_floor) := by
  simp only [update_raw, _floor_value, increment_count, atrInput]
  split_ifs <;> simp_all

lemma AverageTrueRange.atrFullInv_init (p : Nat) (t : Option MovingAverageType)
    (u : Option Bool) (f : Option ℚ) : AtrFullInv (AverageTrueRange.init p t u f) := by
  constructor <;> simp [AverageTrueRange.init, AtrInv]

lemma AverageTrueRange.atrFullInv_update_raw (s : AverageTrueRange) (h l c : ℚ)
    (hs : AtrFullInv s) : AtrFullInv (s.update_raw h l c) := by
  obtain ⟨h1, h2⟩ := hs
  unfold AtrFullInv AtrInv at *
  rw [update_raw_has_inputs, update_raw_is_initialized, update_raw_count, update_raw_period]
  by_cases hinit : s.is_initialized = true
  · obtain ⟨hcp, hhi⟩ := h2 hinit
    constructor
    · simp [hinit, hhi]
    · intro _
      exact ⟨Nat.le_succ_of_le hcp, by simp [hinit, hhi]⟩
  · have hfalse : s.is_initialized = false := by
      cases hb : s.is_initialized
      · rfl
      · exact absurd hb hinit
    constructor
    · simp [hfalse]
    · intro hd
      rw [hfalse] at hd
      simp only [Bool.false_or, decide_eq_true_eq] at hd
      exact ⟨hd, by simp [hfalse]⟩

lemma AverageTrueRange.atrFullInv_reset (s : AverageTrueRange) :
    AtrFullInv s.reset := by
  constructor <;> simp [AverageTrueRange.reset, AtrInv]

lemma AverageTrueRange.atrFullInv_applyOp (s : AverageTrueRange) (op : AtrOp)
    (hs : AtrFullInv s) : AtrFullInv (s.applyOp op) := by
  cases op with
  | updateRaw h l c => exact s.atrFullInv_update_raw h l c hs
  | handleBar b => exact s.atrFullInv_update_raw b.high b.low b.close hs
  | handleQuoteTick t => exact hs
  | handleTradeTick t => exact hs
  | reset => exact s.atrFullInv_reset

lemma AverageTrueRange.atrFullInv_applyOps (ops : List AtrOp) (s : AverageTrueRange)
    (hs : AtrFullInv s) : AtrFullInv (s.applyOps ops) := by
  induction ops generalizing s with
  | nil => exact hs
  | cons op rest ih => exact ih (s.applyOp op) (s.atrFullInv_applyOp op hs)

lemma AverageTrueRange.applyUpdates_period (xs : List (ℚ × ℚ × ℚ)) (s : AverageTrueRange) :
    (s.applyUpdates xs).period = s.period := by
  induction xs generalizing s with
  | nil => rfl
  | cons x rest ih =>
    obtain ⟨h, l, c⟩ := x
    simp only [applyUpdates]
    rw [ih, update_raw_period]

lemma AverageTrueRange.applyUpdates_count (xs : List (ℚ × ℚ × ℚ)) (s : AverageTrueRange) :
    (s.applyUpdates xs).count = s.count + xs.length := by
  induction xs generalizing s with
  | nil => rfl
  | cons x rest ih =>
    obtain ⟨h, l, c⟩ := x
    simp only [applyUpdates, List.length_cons]
    rw [ih, update_raw_count]
    omega

lemma AverageTrueRange.applyUpdates_is_initialized (xs : List (ℚ × ℚ × ℚ))
    (s : AverageTrueRange)
    (hinv : s.is_initialized = (decide (s.period ≤ s.count) && decide (1 ≤ s.count))) :
    (s.applyUpdates xs).is_initialized =
      (decide (s.period ≤ s.count + xs.length) && decide (1 ≤ s.count + xs.length)) := by
  induction xs generalizing s with
  | nil => simpa using hinv
  | cons x rest ih =>
    obtain ⟨h, l, c⟩ := x
    have hstep : (s.update_raw h l c).is_initialized =
        (decide ((s.update_raw h l c).period ≤ (s.update_raw h l c).count) &&
          decide (1 ≤ (s.update_raw h l c).count)) := by
      rw [update_raw_is_initialized, update_raw_period, update_raw_count, hinv]
      by_cases hp : s.period ≤ s.count <;> by_cases hq : s.period ≤ s.count + 1 <;>
        by_cases hc : 1 ≤ s.count <;> first
          | (simp [hp, hq, hc]; omega)
          | simp [hp, hq, hc]
    simp only [applyUpdates, List.length_cons]
    rw [ih (s.update_raw h l c) hstep, update_raw_count, update_raw_period,
      show s.count + 1 + rest.length = s.count + (rest.length + 1) from by omega]

/-- Sanity check of the spec's worked single-update example:
`high = 10, low = 8, close = 9, period = 1` gives `value = 2` and initialization. -/
lemma atr_spec_single_update_check :
    ((AverageTrueRange.init 1 none none none).update_raw 10 8 9).value = 2 ∧
    ((AverageTrueRange.init 1 none none none).update_raw 10 8 9).is_initialized = true := by
  norm_num [AverageTrueRange.init, AverageTrueRange.update_raw,
    AverageTrueRange._floor_value, AverageTrueRange.increment_count,
    trueRangeTwoTerm, MovingAverage.update_raw, MovingAverage.value,
    SimpleMovingAverage.update_raw, SimpleMovingAverage.value,
    MovingAverageFactory.create, max_def, min_def]

/-- Sanity check of the spec's worked sequence example: three bars with
`period = 3` give `value = 2` and initialization exactly at the third update. -/
lemma atr_spec_sequence_check :
    ((AverageTrueRange.init 3 none none none).applyUpdates
      [(10, 8, 9), (11, 9, 10), (12, 10, 11)]).value = 2 ∧
    ((AverageTrueRange.init 3 none none none).applyUpdates
      [(10, 8, 9), (11, 9, 10)]).is_initialized = false ∧
    ((AverageTrueRange.init 3 none none none).applyUpdates
      [(10, 8, 9), (11, 9, 10), (12, 10, 11)]).is_initialized = true := by
  norm_num [AverageTrueRange.init, AverageTrueRange.update_raw,
    AverageTrueRange.applyUpdates,
    AverageTrueRange._floor_value, AverageTrueRange.increment_count,
    trueRangeTwoTerm, MovingAverage.update_raw, MovingAverage.value,
    SimpleMovingAverage.update_raw, SimpleMovingAverage.value,
    MovingAverageFactory.create, max_def, min_def]

/-- C1: the claim says `reset()` restores fresh-construction behaviour, in
particular resetting the owned moving average's accumulated state.  The source's
`reset` never touches `_ma`, so the post-reset trajectory diverges from a fresh
instance: with `period = 2`, `use_previous = false`, after one update and a
reset, the next update averages the stale window entry `2` with the new range
`10` and reports `6`, while a fresh instance reports `10`. -/
theorem atr_C1_code_divergence :
    ((((AverageTrueRange.init 2 none (some false) none).update_raw 3 1 2).reset)._ma ≠
        (AverageTrueRange.init 2 none (some false) none)._ma) ∧
    (((((AverageTrueRange.init 2 none (some false) none).update_raw 3 1 2).reset).update_raw
        11 1 2).value = 6) ∧
    (((AverageTrueRange.init 2 none (some false) none).update_raw 11 1 2).value = 10) := by
  norm_num [AverageTrueRange.init, AverageTrueRange.update_raw, AverageTrueRange.reset,
    AverageTrueRange._floor_value, AverageTrueRange.increment_count, trueRangeTwoTerm,
    MovingAverage.update_raw, MovingAverage.value, SimpleMovingAverage.update_raw,
    SimpleMovingAverage.value, MovingAverageFactory.create, max_def, min_def]

/-- C2: the claim says the owned moving average is of the variant selected by
`ma_type`.  The source's `new` stores the tag but passes the literal
`MovingAverageType::Simple` to the factory, so requesting the exponential
variant still yields a simple moving average. -/
theorem atr_C2_code_divergence :
    (AverageTrueRange.init 1 (some MovingAverageType.exponential) none none).ma_type =
        MovingAverageType.exponential ∧
    (AverageTrueRange.init 1 (some MovingAverageType.exponential) none none)._ma.isSimpleVariant
        = true :=
  ⟨rfl, rfl⟩

/-- C3: the claim says construction with `period == 0` is rejected with an
`InvalidConfiguration` error.  The source's `new` performs no validation and
unconditionally returns `Ok`, also at `period = 0`. -/
theorem atr_C3_code_divergence :
    AverageTrueRange.new 0 none none none =
      Except.ok (AverageTrueRange.init 0 none none none) :=
  rfl

/-- C4: for every `period ≥ 1`, starting from a fresh construction or a fresh
reset, `is_initialized` is false while fewer than `period` updates have been
applied and true from the `period`-th update on. -/
theorem atr_C4 (p : Nat) (t : Option MovingAverageType) (u : Option Bool) (f : Option ℚ)
    (xs : List (ℚ × ℚ × ℚ)) (s0 : AverageTrueRange) (hp : 1 ≤ p) (hs0 : s0.period = p) :
    (((AverageTrueRange.init p t u f).applyUpdates xs).is_initialized = true ↔
        p ≤ xs.length) ∧
    ((s0.reset.applyUpdates xs).is_initialized = true ↔ p ≤ xs.length) := by
  have hfresh : ∀ s : AverageTrueRange, s.period = p → s.count = 0 →
      s.is_initialized = false →
      ((s.applyUpdates xs).is_initialized = true ↔ p ≤ xs.length) := by
    intro s hsp hsc hsi
    have hinv : s.is_initialized =
        (decide (s.period ≤ s.count) && decide (1 ≤ s.count)) := by
      rw [hsi, hsc]
      simp
    rw [AverageTrueRange.applyUpdates_is_initialized xs s hinv, hsp, hsc]
    simp only [Nat.zero_add]
    constructor
    · intro hb
      simp only [Bool.and_eq_true, decide_eq_true_eq] at hb
      exact hb.1
    · intro hle
      have h1 : 1 ≤ xs.length := le_trans hp hle
      simp [hle, h1]
  exact ⟨hfresh _ rfl rfl rfl, hfresh _ (by rw [← hs0]; rfl) rfl rfl⟩

/-- Witness for C4 at `period = 2` and two concrete updates. -/
theorem atr_C4_witness :
    1 ≤ 2 ∧ (AverageTrueRange.init 2 none none none).period = 2 ∧
    ((((AverageTrueRange.init 2 none none none).applyUpdates
        [(3, 1, 2), (4, 1, 2)]).is_initialized = true ↔ 2 ≤ 2) ∧
      ((((AverageTrueRange.init 2 none none none).reset).applyUpdates
        [(3, 1, 2), (4, 1, 2)]).is_initialized = true ↔ 2 ≤ 2)) :=
  ⟨by decide, rfl,
    atr_C4 2 none none none [(3, 1, 2), (4, 1, 2)]
      (AverageTrueRange.init 2 none none none) (by decide) rfl⟩

/-- C5: with a positive floor `F`, every `update_raw` call leaves
`value ≥ F`; `value` copies the moving average's value when that value exceeds
`F` and is pinned to `F` otherwise. -/
theorem atr_C5 (s : AverageTrueRange) (high low close : ℚ) (hF : 0 < s.value_floor) :
    s.value_floor ≤ (s.update_raw high low close).value ∧
    ((s.update_raw high low close).value =
      if s.value_floor < (s.update_raw high low close)._ma.value
      then (s.update_raw high low close)._ma.value
      else s.value_floor) := by
  have hne : s.value_floor ≠ 0 := ne_of_gt hF
  rw [AverageTrueRange.update_raw_value, AverageTrueRange.update_raw_ma]
  by_cases hlt : s.value_floor < (s._ma.update_raw (s.atrInput high low close)).value
  · simp [hne, hlt, le_of_lt hlt]
  · simp [hne, hlt]

/-- Witness for C5 at `period = 1`, `value_floor = 5`, one concrete update whose
true range `2` falls below the floor. -/
theorem atr_C5_witness :
    0 < (AverageTrueRange.init 1 none none (some 5)).value_floor ∧
    ((AverageTrueRange.init 1 none none (some 5)).value_floor ≤
        ((AverageTrueRange.init 1 none none (some 5)).update_raw 10 8 9).value ∧
      (((AverageTrueRange.init 1 none none (some 5)).update_raw 10 8 9).value =
        if (AverageTrueRange.init 1 none none (some 5)).value_floor <
            ((AverageTrueRange.init 1 none none (some 5)).update_raw 10 8 9)._ma.value
        then ((AverageTrueRange.init 1 none none (some 5)).update_raw 10 8 9)._ma.value
        else (AverageTrueRange.init 1 none none (some 5)).value_floor)) :=
  ⟨by decide, atr_C5 (AverageTrueRange.init 1 none none (some 5)) 10 8 9 (by decide)⟩

/-- C6 counterexample: the claim asserts the first true range with
`use_previous = true` reduces to the plain `high − low` range.  At
`high = 10, low = 8, close = 20` (a close outside the bar's range), the first
true range is `max(20, 10) − min(8, 20) = 12`, not `10 − 8 = 2`. -/
theorem atr_C6_counterexample :
    ((AverageTrueRange.init 1 none none none).update_raw 10 8 20).value ≠ 10 - 8 := by
  norm_num [AverageTrueRange.init, AverageTrueRange.update_raw,
    AverageTrueRange._floor_value, AverageTrueRange.increment_count, trueRangeTwoTerm,
    MovingAverage.update_raw, MovingAverage.value, SimpleMovingAverage.update_raw,
    SimpleMovingAverage.value, MovingAverageFactory.create, max_def, min_def]

/-- C6 (amended): with `use_previous = true` and no inputs yet, the first
`update_raw` seeds `previous_close` with the current `close` before computing
the true range, so that range is `max(close, high) − min(low, close)`; it
reduces to the plain `high − low` range whenever `low ≤ close ≤ high`. -/
theorem atr_C6_amended (s : AverageTrueRange) (high low close : ℚ)
    (hup : s.use_previous = true) (hfresh : s.has_inputs = false) :
    (s.update_raw high low close)._ma =
        s._ma.update_raw (trueRangeTwoTerm close high low) ∧
    (low ≤ close → close ≤ high →
      (s.update_raw high low close)._ma = s._ma.update_raw (high - low)) := by
  have hin : s.atrInput high low close = trueRangeTwoTerm close high low := by
    simp [AverageTrueRange.atrInput, hup, hfresh]
  refine ⟨by rw [AverageTrueRange.update_raw_ma, hin], ?_⟩
  intro hlc hch
  rw [AverageTrueRange.update_raw_ma, hin]
  have hred : trueRangeTwoTerm close high low = high - low := by
    unfold trueRangeTwoTerm
    rw [max_eq_right hch, min_eq_left hlc]
  rw [hred]

/-- Witness for the amended C6 at a fresh `period = 1` instance and the spec's
worked bar `(10, 8, 9)`. -/
theorem atr_C6_witness :
    (AverageTrueRange.init 1 none none none).use_previous = true ∧
    (AverageTrueRange.init 1 none none none).has_inputs = false ∧
    (((AverageTrueRange.init 1 none none none).update_raw 10 8 9)._ma =
        (AverageTrueRange.init 1 none none none)._ma.update_raw
          (trueRangeTwoTerm 9 10 8) ∧
      ((8 : ℚ) ≤ 9 → (9 : ℚ) ≤ 10 →
        ((AverageTrueRange.init 1 none none none).update_raw 10 8 9)._ma =
          (AverageTrueRange.init 1 none none none)._ma.update_raw (10 - 8))) :=
  ⟨rfl, rfl, atr_C6_amended (AverageTrueRange.init 1 none none none) 10 8 9 rfl rfl⟩

/-- C7: when `high ≥ low`, the two-term expression
`max(previous_close, high) − min(low, previous_close)` used by `update_raw`
equals the standard three-term true range and is non-negative; the embedding is
a total function on all rational inputs. -/
theorem atr_C7 (pc high low : ℚ) (hhl : low ≤ high) :
    trueRangeTwoTerm pc high low = trueRangeThreeTerm pc high low ∧
    0 ≤ trueRangeTwoTerm pc high low := by
  constructor
  · unfold trueRangeTwoTerm trueRangeThreeTerm
    rcases le_total pc low with h1 | h1 <;> rcases le_total pc high with h2 | h2 <;>
      simp only [abs_eq_max_neg, neg_sub, max_def, min_def] <;>
      split_ifs <;> linarith
  · unfold trueRangeTwoTerm
    have h1 : min low pc ≤ pc := min_le_right _ _
    have h2 : pc ≤ max pc high := le_max_left _ _
    linarith

/-- Witness for C7 at the spec's worked bar: `pc = 9, high = 10, low = 8`. -/
theorem atr_C7_witness :
    (8 : ℚ) ≤ 10 ∧
    (trueRangeTwoTerm 9 10 8 = trueRangeThreeTerm 9 10 8 ∧
      0 ≤ trueRangeTwoTerm 9 10 8) :=
  ⟨by decide, atr_C7 9 10 8 (by decide)⟩

/-- C8: `handle_quote_tick` and `handle_trade_tick` leave the whole
`AverageTrueRange` state unchanged, for every state and every tick. -/
theorem atr_C8 (s : AverageTrueRange) (qt : QuoteTick) (tt : TradeTick) :
    s.handle_quote_tick qt = s ∧ s.handle_trade_tick tt = s :=
  ⟨rfl, rfl⟩

/-- C9: in every state reachable from construction by any sequence of
operations, `is_initialized` implies `count ≥ period` and `has_inputs`. -/
theorem atr_C9 (p : Nat) (t : Option MovingAverageType) (u : Option Bool) (f : Option ℚ)
    (ops : List AtrOp) : AtrInv ((AverageTrueRange.init p t u f).applyOps ops) :=
  (AverageTrueRange.atrFullInv_applyOps ops _ (AverageTrueRange.atrFullInv_init p t u f)).2

/-- C10: in every state reachable from construction by any sequence of
operations, `has_inputs` holds exactly when `count > 0`. -/
theorem atr_C10 (p : Nat) (t : Option MovingAverageType) (u : Option Bool) (f : Option ℚ)
    (ops : List AtrOp) :
    (((AverageTrueRange.init p t u f).applyOps ops).has_inputs = true ↔
      0 < ((AverageTrueRange.init p t u f).applyOps ops).count) :=
  (AverageTrueRange.atrFullInv_applyOps ops _ (AverageTrueRange.atrFullInv_init p t u f)).1
